import Mathlib

/-!
# Verification of `Contact_map_two_conformers.py`

A shallow embedding of the contact-map comparison script.  Python strings
are modelled as `List Char` (`PyStr`), residue nodes of the contact graph
as a record of residue name and sequence number, and the `networkx` graph
returned by `to_networkx` as a node list together with an edge list.
Pure fragments of the script become Lean functions; functions whose Python
counterpart can raise return `Option`.
-/

namespace ContactMapTwoConformers

/-- A Python string, modelled as its list of characters. -/
abbrev PyStr := List Char

/-- A residue node of the contact graph (mdtraj residue object as seen by
the script: it reads `node.name` and `node.resSeq`). -/
structure Node where
  name : PyStr
  resSeq : Int
deriving DecidableEq, Repr

/-- The label the script computes for a node:
`node_label = node_name + str(node_seq)` (line 92). -/
def residue_label (node : Node) : PyStr :=
  node.name ++ (toString node.resSeq).data

/-- The contact graph produced by `to_networkx`: a list of residue nodes
and an undirected edge list. -/
structure Graph where
  nodes : List Node
  edges : List (Node × Node)
deriving DecidableEq, Repr

/-- `networkx`'s `graph.has_edge(u, v)`: true when the (undirected) edge
list holds the pair in either orientation. -/
def Graph.has_edge (g : Graph) (u v : Node) : Bool :=
  g.edges.any (fun e => (e.1 == u && e.2 == v) || (e.1 == v && e.2 == u))

/-- `extract_subgraph_for_residue(target_residue, graph)` (lines 87-104).
The loop scans the nodes in order for the first whose label equals the
target string (`find?`); if none matches, `target_node` is still the
string, never a member of the graph, so the function returns `None`.
On a match it builds a fresh graph holding the target node and, for every
graph node sharing an edge with it, that edge and that node. -/
def extract_subgraph_for_residue (target_residue : PyStr) (graph : Graph) :
    Option Graph :=
  match graph.nodes.find? (fun node => target_residue == residue_label node) with
  | some target_node =>
    if graph.nodes.contains target_node then
      some { nodes := target_node ::
               graph.nodes.filter (fun node => graph.has_edge target_node node),
             edges := (graph.nodes.filter
                 (fun node => graph.has_edge target_node node)).map
               (fun node => (target_node, node)) }
    else none
  | none => none

/-- The `__main__` residue loop (lines 145-151) for one conformer: each
residue's subgraph is appended to the dictionary only when
`extract_subgraph_for_residue` returned a truthy value (`if subgraphA:`,
where a `networkx` graph is truthy iff it has at least one node); a `None`
result adds no entry and raises no error. -/
def main_subgraphs (residues_list : List PyStr) (graph : Graph) :
    List (PyStr × Graph) :=
  match residues_list with
  | [] => []
  | res :: rest =>
    match extract_subgraph_for_residue res graph with
    | some sg =>
      if sg.nodes.isEmpty then main_subgraphs rest graph
      else (res, sg) :: main_subgraphs rest graph
    | none => main_subgraphs rest graph

/-- The hard-coded default residue labels of line 134. -/
def default_residue_indices : List PyStr :=
  ["LYS171".data, "HIS201".data, "TYR202".data, "LEU203".data, "GLY204".data,
   "LYS205".data, "GLU239".data, "ASP258".data, "GLN395".data, "KHB360".data]

/-- Line 134: `args.residue_indices if args.residue_indices is not None
else [...]`. -/
def residues_list (residue_indices : Option (List PyStr)) : List PyStr :=
  match residue_indices with
  | some l => l
  | none => default_residue_indices

/-- The result of a successful `parser.parse_args()`.  The `cut_off` field
keeps the raw command-line token; the `float(...)` conversion argparse
applies afterwards is outside the scope of the modelled claims. -/
structure ParsedArgs where
  pdbA_file : PyStr
  pdbB_file : PyStr
  cut_off : PyStr
  residue_indices : Option (List PyStr)
deriving DecidableEq, Repr

/-- The `default=0.35` declared on the `cut_off` argument (line 127). -/
def cut_off_default : PyStr := "0.35".data

/-- Modelled from the spec: Python's `argparse` (external standard
library) applied to the parser of lines 124-129.  A positional argument
declared without `nargs` always consumes exactly one command-line token,
whatever `default` it declares, and parsing fails when fewer tokens than
positionals remain; `--residue_indices` with `nargs='*'` consumes every
token that follows it.  The declared `cut_off_default` is never consulted. -/
def match_positionals (positionals : List PyStr)
    (residue_indices : Option (List PyStr)) : Option ParsedArgs :=
  match positionals with
  | [a, b, c] => some ⟨a, b, c, residue_indices⟩
  | _ => none

/-- See `match_positionals` for the matching of the three positionals
against the tokens left over after the optional flag. -/
def parse_args (argv : List PyStr) : Option ParsedArgs :=
  match argv.findIdx? (· == "--residue_indices".data) with
  | some i => match_positionals (argv.take i) (some (argv.drop (i + 1)))
  | none => match_positionals argv none

/-- Lines 136-137: `'.'.join(args.pdbA_file.split('.')[:-1])` — the
input-file stem.  Python's `split('.')` is `List.splitOn '.'`, `[:-1]` is
`dropLast` and `'.'.join` is `List.intercalate ['.']`. -/
def filename_stem (path : PyStr) : PyStr :=
  List.intercalate ['.'] ((path.splitOn '.').dropLast)

/-- Every file the run writes, in execution order, with the name each gets
(lines 67-68, 78, 83-85, 120 via the two `__main__` calls). -/
def output_files (pdbA_file pdbB_file : PyStr) : List PyStr :=
  let filenameA := filename_stem pdbA_file
  let filenameB := filename_stem pdbB_file
  [ "sample_".data ++ filenameA ++ ".json".data,
    filenameA ++ "_contacts.pdf".data,
    filenameA ++ "_contacts.eps".data,
    filenameA ++ "_contacts.p".data,
    "sample_".data ++ filenameB ++ ".json".data,
    filenameB ++ "_contacts.pdf".data,
    filenameB ++ "_contacts.eps".data,
    filenameB ++ "_contacts.p".data,
    "diff_contacts_".data ++ filenameA ++ "_".data ++ filenameB ++ ".pdf".data,
    "diff_contacts_".data ++ filenameA ++ "_".data ++ filenameB ++ ".eps".data,
    filenameA ++ "_combined.png".data,
    filenameB ++ "_combined.png".data ]

/-- The observable effect of `plot_multiple_contact_network_graphs`
(lines 106-121) on the figure grid: the grid shape and, per flattened
axis, whether `axis('off')` was called on it.  For an empty dictionary the
hide loop `for j in range(i + 1, len(axes))` reads the loop variable `i`
that the drawing loop never bound, so the call fails (`none`). -/
structure FigGrid where
  rows : Nat
  cols : Nat
  axes_off : List Bool
deriving DecidableEq, Repr

/-- See `FigGrid`.  `rows = (num_graphs + cols - 1) // cols`; the drawing
loop leaves `i = num_graphs - 1`, and axes `i + 1, ..., rows * cols - 1`
are turned off. -/
def plot_multiple_contact_network_graphs (graph_dict : List (PyStr × Graph))
    (cols : Nat) : Option FigGrid :=
  let num_graphs := graph_dict.length
  let rows := (num_graphs + cols - 1) / cols
  if num_graphs = 0 then none
  else
    let i := num_graphs - 1
    some { rows := rows, cols := cols,
           axes_off := (List.range (rows * cols)).map
             (fun j => decide (i + 1 ≤ j)) }

/-- A JSON value, the codomain of the contact-map serializer. -/
inductive JValue where
  | num (n : Int)
  | str (s : PyStr)
  | arr (elems : List JValue)
  | obj (fields : List (PyStr × JValue))

/-- Modelled from the spec: the external `contact_map` library's
`ContactFrequency` as the script serializes it — a topology, a frame
count, and per residue pair the count of frames in which the pair is in
contact (the contact frequency is that count over `n_frames`). -/
structure ContactFrequency where
  topology : PyStr
  n_frames : Nat
  counts : List (Nat × Nat × Nat)
deriving DecidableEq, Repr

/-- Modelled from the spec: `ContactFrequency.to_json`, the library's JSON
serialization of the contact-frequency data. -/
def ContactFrequency.to_json (c : ContactFrequency) : JValue :=
  JValue.obj
    [("topology".data, JValue.str c.topology),
     ("n_frames".data, JValue.num c.n_frames),
     ("counts".data, JValue.arr (c.counts.map
        (fun t => JValue.arr [JValue.num t.1, JValue.num t.2.1, JValue.num t.2.2])))]

/-- One `[i, j, count]` entry of the serialized contact list. -/
def parseCount : JValue → Option (Nat × Nat × Nat)
  | JValue.arr [JValue.num i, JValue.num j, JValue.num k] =>
    if 0 ≤ i ∧ 0 ≤ j ∧ 0 ≤ k then some (i.toNat, j.toNat, k.toNat) else none
  | _ => none

/-- All entries of the serialized contact list, failing if any entry is
malformed. -/
def parseCounts : List JValue → Option (List (Nat × Nat × Nat))
  | [] => some []
  | v :: vs =>
    match parseCount v, parseCounts vs with
    | some c, some cs => some (c :: cs)
    | _, _ => none

/-- Modelled from the spec: `ContactFrequency.from_json`, the inverse
deserialization; it fails (the library raises) on malformed input. -/
def ContactFrequency.from_json : JValue → Option ContactFrequency
  | JValue.obj [(f1, JValue.str t), (f2, JValue.num nf), (f3, JValue.arr cs)] =>
    if f1 = "topology".data ∧ f2 = "n_frames".data ∧ f3 = "counts".data ∧ 0 ≤ nf then
      match parseCounts cs with
      | some counts => some ⟨t, nf.toNat, counts⟩
      | none => none
    else none
  | _ => none

/-- The files `plot_contact_map(contacts, filename)` (lines 74-85)
writes: the JSON file with the value it holds, the two plot files and the
pickle file. -/
structure PlotContactMapResult where
  json_file : PyStr × JValue
  pdf_file : PyStr
  eps_file : PyStr
  pickle_file : PyStr

/-- `plot_contact_map` (lines 74-85): it serializes the contacts
(`to_json`), deserializes that string (`from_json`, which raises on
failure — `none` here), serializes the result again and writes that to
`sample_{filename}.json`; then saves the plot as PDF and EPS and pickles
the contacts object. -/
def plot_contact_map (contacts : ContactFrequency) (filename : PyStr) :
    Option PlotContactMapResult :=
  let json_str := contacts.to_json
  match ContactFrequency.from_json json_str with
  | none => none
  | some from_json_str =>
    some { json_file := ("sample_".data ++ filename ++ ".json".data,
                         from_json_str.to_json),
           pdf_file := filename ++ "_contacts.pdf".data,
           eps_file := filename ++ "_contacts.eps".data,
           pickle_file := filename ++ "_contacts.p".data }

/-- The observable pipeline steps of one run, at the granularity of the
spec's pipeline description. -/
inductive Event where
  | load (path : PyStr)
  | compute_contact_frequency (filename : PyStr)
  | plot_contact_map_step (filename : PyStr)
  | compute_difference
  | export_difference_plot
  | extract_subgraph_step (residue : PyStr) (filename : PyStr)
  | render_grid (filename : PyStr)
deriving DecidableEq, Repr

/-- The steps `find_contacts` performs, in source order (lines 58-72):
`ContactFrequency` for A (line 59) and B (line 60), `plot_contact_map`
for A (line 61) and B (line 62), the difference (line 63), and the saved
difference plot (lines 64-68). -/
def find_contacts_trace (filenameA filenameB : PyStr) : List Event :=
  [Event.compute_contact_frequency filenameA,
   Event.compute_contact_frequency filenameB,
   Event.plot_contact_map_step filenameA,
   Event.plot_contact_map_step filenameB,
   Event.compute_difference,
   Event.export_difference_plot]

/-- The residue loop of lines 145-151: for each residue, extraction from
graph A then from graph B. -/
def subgraph_events (residues : List PyStr) (filenameA filenameB : PyStr) :
    List Event :=
  match residues with
  | [] => []
  | r :: rest =>
    Event.extract_subgraph_step r filenameA ::
      Event.extract_subgraph_step r filenameB ::
        subgraph_events rest filenameA filenameB

/-- The steps `__main__` performs, in source order (lines 131-153): load
both structures, run `find_contacts`, extract the per-residue subgraphs,
render the two combined grids. -/
def main_trace (pdbA_file pdbB_file : PyStr) (residues : List PyStr) :
    List Event :=
  [Event.load pdbA_file, Event.load pdbB_file]
    ++ find_contacts_trace (filename_stem pdbA_file) (filename_stem pdbB_file)
    ++ subgraph_events residues (filename_stem pdbA_file) (filename_stem pdbB_file)
    ++ [Event.render_grid (filename_stem pdbA_file),
        Event.render_grid (filename_stem pdbB_file)]

/-- The pipeline stage an event belongs to, numbered in the order the
spec lists the stages. -/
def phase : Event → Nat
  | Event.load _ => 0
  | Event.compute_contact_frequency _ => 1
  | Event.plot_contact_map_step _ => 2
  | Event.compute_difference => 3
  | Event.export_difference_plot => 4
  | Event.extract_subgraph_step _ _ => 5
  | Event.render_grid _ => 6

/-! ## Example data for witnesses -/

/-- Example node for `LYS171`. -/
def exLYS : Node := ⟨"LYS".data, 171⟩

/-- Example node for `HIS201`. -/
def exHIS : Node := ⟨"HIS".data, 201⟩

/-- Example node for `TYR202`. -/
def exTYR : Node := ⟨"TYR".data, 202⟩

/-- An example contact graph: `LYS171 — HIS201 — TYR202`, with a
neighbor-to-neighbor edge `LYS171 — TYR202` as well. -/
def exGraph : Graph :=
  ⟨[exLYS, exHIS, exTYR], [(exLYS, exHIS), (exHIS, exTYR), (exLYS, exTYR)]⟩

/-! ## Helper lemmas -/

/-- If the label scan of `extract_subgraph_for_residue` finds a node, the
function returns the star graph around it. -/
theorem extract_of_find (target : PyStr) (g : Graph) (t : Node)
    (hf : g.nodes.find? (fun node => target == residue_label node) = some t) :
    extract_subgraph_for_residue target g =
      some { nodes := t :: g.nodes.filter (fun node => g.has_edge t node),
             edges := (g.nodes.filter (fun node => g.has_edge t node)).map
               (fun node => (t, node)) } := by
  have hmem : t ∈ g.nodes := List.mem_of_find?_eq_some hf
  unfold extract_subgraph_for_residue
  rw [hf]
  simp [hmem]

/-- The label scan fails exactly when no node's label equals the target. -/
theorem find_label_eq_none_iff (target : PyStr) (g : Graph) :
    g.nodes.find? (fun node => target == residue_label node) = none ↔
      ∀ n ∈ g.nodes, target ≠ residue_label n := by
  rw [List.find?_eq_none]
  constructor
  · intro h n hn he
    exact h n hn (by simp [he])
  · intro h n hn
    simpa using h n hn

/-! ## Claims -/

/-- Claim C6: the analyzed residue labels are the user-supplied
`--residue_indices` list when given, and otherwise exactly the fixed
default list of ten labels. -/
theorem residues_list_default_or_user (o : Option (List PyStr)) :
    residues_list o =
      o.getD ["LYS171".data, "HIS201".data, "TYR202".data, "LEU203".data,
              "GLY204".data, "LYS205".data, "GLU239".data, "ASP258".data,
              "GLN395".data, "KHB360".data] := by
  cases o <;> rfl

/-- Claim C3: the residue lookup matches a node iff the target string is
exactly the concatenation of the node's residue name and its sequence
number; in particular a subgraph is returned iff such an exact match
exists. -/
theorem residue_label_match_is_exact (target : PyStr) (g : Graph) :
    (extract_subgraph_for_residue target g).isSome = true ↔
      ∃ n, n ∈ g.nodes ∧ target = n.name ++ (toString n.resSeq).data := by
  cases hf : g.nodes.find? (fun node => target == residue_label node) with
  | none =>
    have hnone : extract_subgraph_for_residue target g = none := by
      unfold extract_subgraph_for_residue
      rw [hf]
    rw [hnone]
    simp only [Option.isSome_none, Bool.false_eq_true, false_iff]
    rintro ⟨n, hn, he⟩
    exact (find_label_eq_none_iff target g).mp hf n hn he
  | some t =>
    rw [extract_of_find target g t hf]
    simp only [Option.isSome_some, true_iff]
    refine ⟨t, List.mem_of_find?_eq_some hf, ?_⟩
    have := List.find?_some hf
    simpa [residue_label] using this

/-- Claim C8: a successfully extracted subgraph is a star centered on the
matched node: its nodes are the matched node plus exactly its neighbors
in the original graph, every edge joins the matched node to a neighbor,
and every neighbor edge is present (neighbor-to-neighbor edges of the
original graph are not copied). -/
theorem extracted_subgraph_is_star (target : PyStr) (g sg : Graph)
    (h : extract_subgraph_for_residue target g = some sg) :
    ∃ t, t ∈ g.nodes ∧ residue_label t = target ∧
      (∀ n, n ∈ sg.nodes ↔ n = t ∨ (n ∈ g.nodes ∧ g.has_edge t n = true)) ∧
      (∀ e, e ∈ sg.edges → e.1 = t ∧ e.2 ∈ g.nodes ∧ g.has_edge t e.2 = true) ∧
      (∀ n, n ∈ g.nodes → g.has_edge t n = true → (t, n) ∈ sg.edges) := by
  cases hf : g.nodes.find? (fun node => target == residue_label node) with
  | none =>
    have hnone : extract_subgraph_for_residue target g = none := by
      unfold extract_subgraph_for_residue
      rw [hf]
    rw [hnone] at h
    cases h
  | some t =>
    rw [extract_of_find target g t hf] at h
    obtain rfl := (Option.some_inj.mp h).symm
    refine ⟨t, List.mem_of_find?_eq_some hf, ?_, ?_, ?_, ?_⟩
    · have h2 : target = residue_label t := by simpa using List.find?_some hf
      exact h2.symm
    · intro n
      simp [List.mem_filter]
    · intro e he
      simp only [List.mem_map, List.mem_filter] at he
      obtain ⟨n, ⟨hn, hedge⟩, rfl⟩ := he
      exact ⟨rfl, hn, hedge⟩
    · intro n hn hedge
      simp only [List.mem_map, List.mem_filter]
      exact ⟨n, ⟨hn, hedge⟩, rfl⟩

/-- Witness for `extracted_subgraph_is_star` at `LYS171` in `exGraph`. -/
theorem extracted_subgraph_is_star_witness :
    ∃ t, t ∈ exGraph.nodes ∧ residue_label t = "LYS171".data ∧
      (∀ n, n ∈ (Graph.mk [exLYS, exHIS, exTYR] [(exLYS, exHIS), (exLYS, exTYR)]).nodes ↔
        n = t ∨ (n ∈ exGraph.nodes ∧ exGraph.has_edge t n = true)) ∧
      (∀ e, e ∈ (Graph.mk [exLYS, exHIS, exTYR] [(exLYS, exHIS), (exLYS, exTYR)]).edges →
        e.1 = t ∧ e.2 ∈ exGraph.nodes ∧ exGraph.has_edge t e.2 = true) ∧
      (∀ n, n ∈ exGraph.nodes → exGraph.has_edge t n = true →
        (t, n) ∈ (Graph.mk [exLYS, exHIS, exTYR] [(exLYS, exHIS), (exLYS, exTYR)]).edges) :=
  extracted_subgraph_is_star "LYS171".data exGraph
    (Graph.mk [exLYS, exHIS, exTYR] [(exLYS, exHIS), (exLYS, exTYR)]) (by decide)

/-- Claim C1: a target label present in the graph yields a subgraph
containing the matching node; an absent label yields `None`; and in the
main loop a `None` result leaves no entry for that residue in the
subgraph dictionary. -/
theorem extract_found_or_silently_omitted (g : Graph) (target : PyStr) :
    ((∃ n, n ∈ g.nodes ∧ target = n.name ++ (toString n.resSeq).data) →
      ∃ sg, extract_subgraph_for_residue target g = some sg ∧
        ∃ n, n ∈ sg.nodes ∧ n.name ++ (toString n.resSeq).data = target) ∧
    ((∀ n, n ∈ g.nodes → target ≠ n.name ++ (toString n.resSeq).data) →
      extract_subgraph_for_residue target g = none) ∧
    (extract_subgraph_for_residue target g = none →
      ∀ residues sg, (target, sg) ∉ main_subgraphs residues g) := by
  refine ⟨?_, ?_, ?_⟩
  · rintro ⟨n, hn, he⟩
    cases hf : g.nodes.find? (fun node => target == residue_label node) with
    | none =>
      exact absurd he ((find_label_eq_none_iff target g).mp hf n hn)
    | some t =>
      refine ⟨_, extract_of_find target g t hf, t, List.mem_cons_self _ _, ?_⟩
      have h2 : target = residue_label t := by simpa using List.find?_some hf
      exact (h2.trans (by rfl)).symm
  · intro h
    unfold extract_subgraph_for_residue
    rw [(find_label_eq_none_iff target g).mpr fun n hn => h n hn]
  · intro hnone residues sg
    induction residues with
    | nil => simp [main_subgraphs]
    | cons r rest ih =>
      cases he : extract_subgraph_for_residue r g with
      | none =>
        simp only [main_subgraphs, he]
        exact ih
      | some sg2 =>
        have hr : r ≠ target := by
          intro hrt
          rw [hrt, hnone] at he
          cases he
        simp only [main_subgraphs, he]
        by_cases hemp : sg2.nodes.isEmpty = true
        · rw [if_pos hemp]
          exact ih
        · rw [if_neg hemp]
          intro hmem
          rcases List.mem_cons.mp hmem with h1 | h1
          · exact hr (congrArg Prod.fst h1).symm
          · exact ih h1

/-- Witness for `extract_found_or_silently_omitted`: `LYS171` is found in
`exGraph`, `GLN395` is not, and `GLN395` gets no dictionary entry. -/
theorem extract_found_or_silently_omitted_witness :
    (∃ sg, extract_subgraph_for_residue "LYS171".data exGraph = some sg ∧
      ∃ n, n ∈ sg.nodes ∧ n.name ++ (toString n.resSeq).data = "LYS171".data) ∧
    extract_subgraph_for_residue "GLN395".data exGraph = none ∧
    ∀ sg, ("GLN395".data, sg) ∉
      main_subgraphs ["LYS171".data, "GLN395".data] exGraph :=
  ⟨(extract_found_or_silently_omitted exGraph "LYS171".data).1
      ⟨exLYS, by decide, by decide⟩,
   (extract_found_or_silently_omitted exGraph "GLN395".data).2.1
      (by decide),
   (extract_found_or_silently_omitted exGraph "GLN395".data).2.2
      ((extract_found_or_silently_omitted exGraph "GLN395".data).2.1 (by decide))
      ["LYS171".data, "GLN395".data]⟩

/-- `(n + c - 1) / c` in natural division is the ceiling of `n / c`. -/
theorem ceil_div_eq_add_pred_div (n c : ℕ) (hc : 0 < c) :
    ⌈(n : ℚ) / (c : ℚ)⌉₊ = (n + c - 1) / c := by
  have hcq : (0 : ℚ) < (c : ℚ) := by exact_mod_cast hc
  set m := (n + c - 1) / c with hm
  have hdm := Nat.div_add_mod (n + c - 1) c
  have hmod : (n + c - 1) % c < c := Nat.mod_lt _ hc
  apply le_antisymm
  · rw [Nat.ceil_le, div_le_iff₀ hcq]
    have hn : n ≤ m * c := by
      have h1 : c * m + (n + c - 1) % c = n + c - 1 := hdm
      have h2 : m * c = c * m := Nat.mul_comm m c
      rw [h2]
      generalize hcm : c * m = t at h1
      omega
    exact_mod_cast Nat.cast_le.mpr hn
  · rcases Nat.eq_zero_or_pos m with hm0 | hm0
    · simp [hm0]
    · have h1 : (m - 1) * c < n := by
        have h2 := Nat.div_mul_le_self (n + c - 1) c
        rw [← hm] at h2
        have h3 : (m - 1) * c = m * c - c := by rw [Nat.sub_mul, one_mul]
        have h6 : c ≤ m * c := Nat.le_mul_of_pos_left c hm0
        rw [h3]
        generalize m * c = t at h2 h6
        omega
      have h4 : ((m - 1 : ℕ) : ℚ) < (n : ℚ) / (c : ℚ) := by
        rw [lt_div_iff₀ hcq]
        exact_mod_cast h1
      have h5 : m - 1 < ⌈(n : ℚ) / (c : ℚ)⌉₊ := Nat.lt_ceil.mpr h4
      omega

/-- On a non-empty dictionary the grid plotter returns its figure grid. -/
theorem plot_multiple_eq_of_ne_nil (graph_dict : List (PyStr × Graph))
    (cols : Nat) (hn : graph_dict.length ≠ 0) :
    plot_multiple_contact_network_graphs graph_dict cols =
      some ⟨(graph_dict.length + cols - 1) / cols, cols,
        (List.range (((graph_dict.length + cols - 1) / cols) * cols)).map
          (fun j => decide (graph_dict.length - 1 + 1 ≤ j))⟩ := by
  show (if graph_dict.length = 0 then (none : Option FigGrid)
        else some ⟨(graph_dict.length + cols - 1) / cols, cols,
          (List.range (((graph_dict.length + cols - 1) / cols) * cols)).map
            (fun j => decide (graph_dict.length - 1 + 1 ≤ j))⟩) = _
  exact if_neg hn

/-- Claim C2: for a non-empty dictionary of `n` subgraphs and positive
column count, the grid has `⌈n / cols⌉` rows of `cols` axes, and an axis
is turned off exactly when its flattened index is beyond the first `n`. -/
theorem grid_rows_ceil_and_unused_axes_off (graph_dict : List (PyStr × Graph))
    (cols : Nat) (hne : graph_dict ≠ []) (hc : 0 < cols) :
    ∃ fg, plot_multiple_contact_network_graphs graph_dict cols = some fg ∧
      fg.rows = ⌈(graph_dict.length : ℚ) / (cols : ℚ)⌉₊ ∧
      fg.cols = cols ∧
      fg.axes_off.length = fg.rows * cols ∧
      ∀ j, j < fg.axes_off.length →
        fg.axes_off[j]? = some (decide (graph_dict.length ≤ j)) := by
  have hn : graph_dict.length ≠ 0 := by simpa using hne
  have hlen : graph_dict.length - 1 + 1 = graph_dict.length :=
    Nat.succ_pred_eq_of_pos (Nat.pos_of_ne_zero hn)
  refine ⟨_, plot_multiple_eq_of_ne_nil graph_dict cols hn, ?_, rfl, ?_, ?_⟩
  · exact (ceil_div_eq_add_pred_div graph_dict.length cols hc).symm
  · simp
  · intro j hj
    simp only [List.length_map, List.length_range] at hj
    simp [List.getElem?_range, hj, hlen]

/-- Witness for `grid_rows_ceil_and_unused_axes_off`: four subgraphs in
three columns. -/
theorem grid_rows_ceil_and_unused_axes_off_witness :
    ∃ fg, plot_multiple_contact_network_graphs
        [("LYS171".data, exGraph), ("HIS201".data, exGraph),
         ("TYR202".data, exGraph), ("LEU203".data, exGraph)] 3 = some fg ∧
      fg.rows = ⌈(([("LYS171".data, exGraph), ("HIS201".data, exGraph),
         ("TYR202".data, exGraph), ("LEU203".data, exGraph)].length : ℚ)) / ((3 : ℕ) : ℚ)⌉₊ ∧
      fg.cols = 3 ∧
      fg.axes_off.length = fg.rows * 3 ∧
      ∀ j, j < fg.axes_off.length →
        fg.axes_off[j]? = some (decide ([("LYS171".data, exGraph),
          ("HIS201".data, exGraph), ("TYR202".data, exGraph),
          ("LEU203".data, exGraph)].length ≤ j)) :=
  grid_rows_ceil_and_unused_axes_off _ 3 (by decide) (by decide)

/-- Claim C9: the grid plotter fails on the empty dictionary (its hide
loop reads a never-bound variable) and succeeds on any non-empty one, so
non-emptiness is a precondition of the interface. -/
theorem plot_grid_requires_nonempty_dict (cols : Nat)
    (graph_dict : List (PyStr × Graph)) :
    plot_multiple_contact_network_graphs [] cols = none ∧
    (graph_dict ≠ [] → 0 < cols →
      (plot_multiple_contact_network_graphs graph_dict cols).isSome = true) := by
  constructor
  · rfl
  · intro hne hc
    rw [plot_multiple_eq_of_ne_nil graph_dict cols (by simpa using hne)]
    rfl

/-- Witness for `plot_grid_requires_nonempty_dict` at `cols = 3` and a
one-entry dictionary. -/
theorem plot_grid_requires_nonempty_dict_witness :
    plot_multiple_contact_network_graphs [] 3 = none ∧
    (plot_multiple_contact_network_graphs [("LYS171".data, exGraph)] 3).isSome = true :=
  ⟨(plot_grid_requires_nonempty_dict 3 [("LYS171".data, exGraph)]).1,
   (plot_grid_requires_nonempty_dict 3 [("LYS171".data, exGraph)]).2
     (by decide) (by decide)⟩

/-- `parse_args` when the `--residue_indices` flag occurs at index `i`. -/
theorem parse_args_eq_of_findIdx_some (argv : List PyStr) (i : Nat)
    (hidx : argv.findIdx? (· == "--residue_indices".data) = some i) :
    parse_args argv =
      match_positionals (argv.take i) (some (argv.drop (i + 1))) := by
  unfold parse_args
  rw [hidx]

/-- `parse_args` when the `--residue_indices` flag is absent. -/
theorem parse_args_eq_of_findIdx_none (argv : List PyStr)
    (hidx : argv.findIdx? (· == "--residue_indices".data) = none) :
    parse_args argv = match_positionals argv none := by
  unfold parse_args
  rw [hidx]

/-- A successful positional match takes its `cut_off` from the third
positional token. -/
theorem match_positionals_cut_off (pos : List PyStr)
    (res : Option (List PyStr)) (args : ParsedArgs)
    (h : match_positionals pos res = some args) : args.cut_off ∈ pos := by
  rcases pos with _ | ⟨a, _ | ⟨b, _ | ⟨c, _ | ⟨d, rest⟩⟩⟩⟩
  · exact Option.noConfusion h
  · exact Option.noConfusion h
  · exact Option.noConfusion h
  · obtain rfl := Option.some_inj.mp h
    simp
  · exact Option.noConfusion h

/-- A successful parse always takes its `cut_off` from the command line,
never from the declared default. -/
theorem cut_off_from_argv (argv : List PyStr) (args : ParsedArgs)
    (h : parse_args argv = some args) : args.cut_off ∈ argv := by
  cases hidx : argv.findIdx? (· == "--residue_indices".data) with
  | some i =>
    rw [parse_args_eq_of_findIdx_some argv i hidx] at h
    exact List.take_subset i argv (match_positionals_cut_off _ _ _ h)
  | none =>
    rw [parse_args_eq_of_findIdx_none argv hidx] at h
    exact match_positionals_cut_off _ _ _ h

/-- Claim C10: `cut_off` is a required positional — supplying only the two
PDB paths makes parsing fail, its `default=0.35` notwithstanding; when
parsing succeeds the cutoff always comes from the command line. -/
theorem cut_off_positional_required (pA pB : PyStr)
    (hA : pA ≠ "--residue_indices".data) (hB : pB ≠ "--residue_indices".data) :
    parse_args [pA, pB] = none ∧
    ∀ argv args, parse_args argv = some args → args.cut_off ∈ argv := by
  constructor
  · unfold parse_args
    rw [show List.findIdx? (· == "--residue_indices".data) [pA, pB] = none by
      simp [List.findIdx?_cons, hA, hB]]
    rfl
  · exact fun argv args h => cut_off_from_argv argv args h

/-- Witness for `cut_off_positional_required`: two plain paths alone do
not parse. -/
theorem cut_off_positional_required_witness :
    parse_args ["proteinA.pdb".data, "proteinB.pdb".data] = none :=
  (cut_off_positional_required "proteinA.pdb".data "proteinB.pdb".data
    (by decide) (by decide)).1

/-- Deserializing a serialized contact entry recovers it. -/
theorem parseCount_enc (t : Nat × Nat × Nat) :
    parseCount (JValue.arr [JValue.num t.1, JValue.num t.2.1, JValue.num t.2.2]) =
      some t := by
  simp [parseCount, Int.natCast_nonneg]

/-- Deserializing a serialized contact list recovers it. -/
theorem parseCounts_enc (l : List (Nat × Nat × Nat)) :
    parseCounts (l.map fun t =>
      JValue.arr [JValue.num t.1, JValue.num t.2.1, JValue.num t.2.2]) = some l := by
  induction l with
  | nil => rfl
  | cons t rest ih => simp [parseCounts, parseCount_enc, ih]

/-- The contact-frequency JSON round trip is the identity. -/
theorem from_json_to_json (c : ContactFrequency) :
    ContactFrequency.from_json (ContactFrequency.to_json c) = some c := by
  cases c with
  | mk topology n_frames counts =>
    simp [ContactFrequency.to_json, ContactFrequency.from_json,
      parseCounts_enc, Int.natCast_nonneg]

/-- Claim C5: `plot_contact_map` writes `to_json(from_json(to_json(c)))`
to the JSON file, and because the round trip preserves the data this is
exactly the original serialization of `c`. -/
theorem json_written_is_roundtrip (c : ContactFrequency) (filename : PyStr) :
    ContactFrequency.from_json (ContactFrequency.to_json c) = some c ∧
    ∃ out, plot_contact_map c filename = some out ∧
      out.json_file = ("sample_".data ++ filename ++ ".json".data,
                       ContactFrequency.to_json c) := by
  refine ⟨from_json_to_json c, ?_⟩
  simp only [plot_contact_map]
  rw [from_json_to_json c]
  exact ⟨_, rfl, rfl⟩

/-- Every event of the residue loop is an extraction step. -/
theorem phase_subgraph_events (residues : List PyStr) (fA fB : PyStr) :
    ∀ e ∈ subgraph_events residues fA fB, phase e = 5 := by
  induction residues with
  | nil => intro e he; cases he
  | cons r rest ih =>
    intro e he
    rcases List.mem_cons.mp he with rfl | he2
    · rfl
    · rcases List.mem_cons.mp he2 with rfl | he3
      · rfl
      · exact ih e he3

/-- The residue loop's events are phase-monotone (they all share one
phase). -/
theorem pairwise_subgraph_events (residues : List PyStr) (fA fB : PyStr) :
    List.Pairwise (fun a b => phase a ≤ phase b)
      (subgraph_events residues fA fB) := by
  induction residues with
  | nil => exact List.Pairwise.nil
  | cons r rest ih =>
    refine List.Pairwise.cons ?_ (List.Pairwise.cons ?_ ih)
    · intro e he
      have h5 : phase e = 5 := by
        rcases List.mem_cons.mp he with rfl | he2
        · rfl
        · exact phase_subgraph_events rest fA fB e he2
      rw [h5]
      exact Nat.le_refl 5
    · intro e he
      have h5 : phase e = 5 := phase_subgraph_events rest fA fB e he
      rw [h5]
      exact Nat.le_refl 5

/-- Both extraction events of a listed residue occur in the loop's
event list. -/
theorem mem_subgraph_events (residues : List PyStr) (fA fB r : PyStr)
    (hr : r ∈ residues) :
    Event.extract_subgraph_step r fA ∈ subgraph_events residues fA fB ∧
    Event.extract_subgraph_step r fB ∈ subgraph_events residues fA fB := by
  induction residues with
  | nil => cases hr
  | cons x rest ih =>
    rcases List.mem_cons.mp hr with rfl | h2
    · exact ⟨List.mem_cons_self _ _,
        List.mem_cons_of_mem _ (List.mem_cons_self _ _)⟩
    · have h3 := ih h2
      exact ⟨List.mem_cons_of_mem _ (List.mem_cons_of_mem _ h3.1),
        List.mem_cons_of_mem _ (List.mem_cons_of_mem _ h3.2)⟩

/-- Claim C7: the pipeline's event list is monotone in pipeline phase
(load structures → compute contact frequencies → plot contact maps →
compute difference → export difference plot → extract subgraphs → render
grids), and every mandatory step occurs, as do both extraction steps of
every listed residue. -/
theorem pipeline_steps_in_order (pdbA pdbB : PyStr) (residues : List PyStr) :
    List.Pairwise (fun a b => phase a ≤ phase b)
      (main_trace pdbA pdbB residues) ∧
    Event.load pdbA ∈ main_trace pdbA pdbB residues ∧
    Event.load pdbB ∈ main_trace pdbA pdbB residues ∧
    Event.compute_contact_frequency (filename_stem pdbA) ∈ main_trace pdbA pdbB residues ∧
    Event.compute_contact_frequency (filename_stem pdbB) ∈ main_trace pdbA pdbB residues ∧
    Event.plot_contact_map_step (filename_stem pdbA) ∈ main_trace pdbA pdbB residues ∧
    Event.plot_contact_map_step (filename_stem pdbB) ∈ main_trace pdbA pdbB residues ∧
    Event.compute_difference ∈ main_trace pdbA pdbB residues ∧
    Event.export_difference_plot ∈ main_trace pdbA pdbB residues ∧
    Event.render_grid (filename_stem pdbA) ∈ main_trace pdbA pdbB residues ∧
    Event.render_grid (filename_stem pdbB) ∈ main_trace pdbA pdbB residues ∧
    ∀ r, r ∈ residues →
      Event.extract_subgraph_step r (filename_stem pdbA) ∈ main_trace pdbA pdbB residues ∧
      Event.extract_subgraph_step r (filename_stem pdbB) ∈ main_trace pdbA pdbB residues := by
  refine ⟨?_, ?_, ?_, ?_, ?_, ?_, ?_, ?_, ?_, ?_, ?_, ?_⟩
  · rw [main_trace, find_contacts_trace]
    rw [List.append_assoc, List.append_assoc]
    rw [List.pairwise_append]
    refine ⟨by simp [List.pairwise_cons, phase], ?_, ?_⟩
    · rw [List.pairwise_append]
      refine ⟨by simp [List.pairwise_cons, phase], ?_, ?_⟩
      · rw [List.pairwise_append]
        refine ⟨pairwise_subgraph_events residues _ _,
          by simp [List.pairwise_cons, phase], ?_⟩
        intro a ha b hb
        have h5 : phase a = 5 := phase_subgraph_events residues _ _ a ha
        have h6 : phase b = 6 := by
          rcases List.mem_cons.mp hb with rfl | hb2
          · rfl
          · rcases List.mem_cons.mp hb2 with rfl | hb3
            · rfl
            · cases hb3
        rw [h5, h6]
        omega
      · intro a ha b hb
        have h4 : phase a ≤ 4 := by
          fin_cases ha <;> simp [phase]
        have h5 : 5 ≤ phase b := by
          rcases List.mem_append.mp hb with hb1 | hb2
          · rw [phase_subgraph_events residues _ _ b hb1]
          · have h6 : phase b = 6 := by
              rcases List.mem_cons.mp hb2 with rfl | hb3
              · rfl
              · rcases List.mem_cons.mp hb3 with rfl | hb4
                · rfl
                · cases hb4
            omega
        omega
    · intro a ha b hb
      have h0 : phase a = 0 := by
        rcases List.mem_cons.mp ha with rfl | ha2
        · rfl
        · rcases List.mem_cons.mp ha2 with rfl | ha3
          · rfl
          · cases ha3
      rw [h0]
      omega
  · simp [main_trace]
  · simp [main_trace]
  · simp [main_trace, find_contacts_trace]
  · simp [main_trace, find_contacts_trace]
  · simp [main_trace, find_contacts_trace]
  · simp [main_trace, find_contacts_trace]
  · simp [main_trace, find_contacts_trace]
  · simp [main_trace, find_contacts_trace]
  · simp [main_trace]
  · simp [main_trace]
  · intro r hr
    have h := mem_subgraph_events residues (filename_stem pdbA)
      (filename_stem pdbB) r hr
    constructor
    · simp only [main_trace, List.mem_append]
      exact Or.inl (Or.inr h.1)
    · simp only [main_trace, List.mem_append]
      exact Or.inl (Or.inr h.2)

/-- Witness for `pipeline_steps_in_order`: the extraction steps of
`LYS171` occur when it is the listed residue. -/
theorem pipeline_steps_in_order_witness :
    Event.extract_subgraph_step "LYS171".data
        (filename_stem "proteinA.pdb".data) ∈
      main_trace "proteinA.pdb".data "proteinB.pdb".data ["LYS171".data] ∧
    Event.extract_subgraph_step "LYS171".data
        (filename_stem "proteinB.pdb".data) ∈
      main_trace "proteinA.pdb".data "proteinB.pdb".data ["LYS171".data] :=
  (pipeline_steps_in_order "proteinA.pdb".data "proteinB.pdb".data
    ["LYS171".data]).2.2.2.2.2.2.2.2.2.2.2 "LYS171".data (by decide)

/-- Splitting at a separator distributes over an occurrence of the
separator. -/
theorem splitOn_append_sep (x : Char) (l₁ l₂ : List Char) :
    (l₁ ++ x :: l₂).splitOn x = l₁.splitOn x ++ l₂.splitOn x := by
  induction l₁ with
  | nil =>
    simp only [List.nil_append, List.splitOn, List.splitOnP_cons, beq_self_eq_true,
      if_true, List.splitOnP_nil]
    rfl
  | cons a l₁ ih =>
    by_cases h : a = x
    · subst h
      simp only [List.cons_append, List.splitOn, List.splitOnP_cons, beq_self_eq_true,
        if_true] at ih ⊢
      rw [ih]
    · have hbeq : (a == x) = false := by simp [h]
      simp only [List.cons_append, List.splitOn, List.splitOnP_cons, hbeq,
        Bool.false_eq_true, if_false] at ih ⊢
      rw [ih]
      obtain ⟨h0, t0, heq⟩ := List.exists_cons_of_ne_nil
        (List.splitOnP_ne_nil (· == x) l₁)
      rw [heq]
      rfl

/-- Dropping the final dot-free extension of `base ++ '.' ++ ext`
recovers `base`. -/
theorem filename_stem_removes_extension (base ext : List Char)
    (he : '.' ∉ ext) : filename_stem (base ++ '.' :: ext) = base := by
  unfold filename_stem
  rw [splitOn_append_sep]
  have hsingle : ext.splitOn '.' = [ext] := by
    apply List.splitOnP_eq_single
    intro y hy
    simp only [beq_iff_eq]
    intro hyx
    exact he (hyx ▸ hy)
  rw [hsingle, List.dropLast_concat]
  exact @List.intercalate_splitOn Char base '.' _

/-- Claim C4: the stem drops the final dot-separated extension (joining
all earlier dot-separated components back with dots), and every output
filename of the run is built from the two input stems. -/
theorem output_filenames_derived_from_stems (baseA extA baseB extB : List Char)
    (hA : '.' ∉ extA) (hB : '.' ∉ extB) :
    filename_stem (baseA ++ '.' :: extA) = baseA ∧
    filename_stem (baseB ++ '.' :: extB) = baseB ∧
    output_files (baseA ++ '.' :: extA) (baseB ++ '.' :: extB) =
      [ "sample_".data ++ baseA ++ ".json".data,
        baseA ++ "_contacts.pdf".data,
        baseA ++ "_contacts.eps".data,
        baseA ++ "_contacts.p".data,
        "sample_".data ++ baseB ++ ".json".data,
        baseB ++ "_contacts.pdf".data,
        baseB ++ "_contacts.eps".data,
        baseB ++ "_contacts.p".data,
        "diff_contacts_".data ++ baseA ++ "_".data ++ baseB ++ ".pdf".data,
        "diff_contacts_".data ++ baseA ++ "_".data ++ baseB ++ ".eps".data,
        baseA ++ "_combined.png".data,
        baseB ++ "_combined.png".data ] := by
  have h1 := filename_stem_removes_extension baseA extA hA
  have h2 := filename_stem_removes_extension baseB extB hB
  exact ⟨h1, h2, by simp only [output_files, h1, h2]⟩

/-- Witness for `output_filenames_derived_from_stems`: input
`proteinA.pdb` yields stem `proteinA`. -/
theorem output_filenames_derived_from_stems_witness :
    filename_stem ("proteinA".data ++ '.' :: "pdb".data) = "proteinA".data :=
  (output_filenames_derived_from_stems "proteinA".data "pdb".data
    "proteinB".data "pdb".data (by decide) (by decide)).1

end ContactMapTwoConformers
